import Mathlib

/-!
Verification of the rule-engine / action-executor core of the
Virtual-Assistant Scheduler repository.

The Python sources embedded here:
  backend/executor/allowed_actions.py
  backend/executor/execution_plan.py
  backend/executor/action_executor.py
  backend/llm/rule_engine.py

Python dictionaries with string keys are embedded as association lists
`List (String × PyVal)` looked up with `List.lookup` (Python dicts have
unique keys; all dicts built by this code are constructed with distinct
keys, and lookup-first semantics agrees with Python on every dict the
code builds).  Python floats are embedded as rationals `ℚ` (the code
performs only arithmetic and comparisons that are exact on the values
the theorems use).  Wall-clock fields (`created_at`) are omitted: no
claim mentions them.
-/

namespace VAS

/-- A Python scalar value as it occurs in the action / rule dictionaries. -/
inductive PyVal where
  | str (s : String)
  | int (n : Int)
  | bool (b : Bool)
  deriving DecidableEq, Repr

/-- A Python dict with string keys, as an association list in insertion order. -/
abbrev Dict := List (String × PyVal)

/-- Python truthiness of a scalar value (used by `if value:`). -/
def pyTruthy : PyVal → Bool
  | .str s => s ≠ ""
  | .int n => n ≠ 0
  | .bool b => b

/-- Embeds `d.get(k, default)` -/
def dictGet (d : Dict) (k : String) (dflt : PyVal) : PyVal :=
  (d.lookup k).getD dflt

/-- Embeds `k in d` -/
def dictHas (d : Dict) (k : String) : Bool :=
  (d.lookup k).isSome

/-- Python `str(v)` as used inside f-strings. -/
def pyStr : PyVal → String
  | .str s => s
  | .int n => toString n
  | .bool b => if b then "True" else "False"

/-! ### backend/executor/allowed_actions.py -/

/-- Source `ALLOWED_ACTIONS` -/
def ALLOWED_ACTIONS : List String :=
  ["flag", "archive", "label", "read", "spam"]

/-- Source `ACTION_REQUIRED_FIELDS` (total over the allowed types). -/
def ACTION_REQUIRED_FIELDS : List (String × List String) :=
  [("flag", ["type"]),
   ("archive", ["type"]),
   ("label", ["type", "label"]),
   ("read", ["type"]),
   ("spam", ["type"])]

/-- Source `is_action_type_allowed(action_type)`.  The Python membership test
`action_type in ALLOWED_ACTIONS` is false for any non-string value. -/
def is_action_type_allowed (v : PyVal) : Bool :=
  match v with
  | .str s => ALLOWED_ACTIONS.contains s
  | _ => false

/-- Source `get_required_fields(action_type)`: `ACTION_REQUIRED_FIELDS.get(t, ["type"])`. -/
def get_required_fields (v : PyVal) : List String :=
  match v with
  | .str s => ((ACTION_REQUIRED_FIELDS.lookup s).getD ["type"])
  | _ => ["type"]

/-! ### backend/executor/execution_plan.py -/

/-- Source `ExecutionDecision` -/
inductive ExecutionDecision where
  | APPROVED
  | BLOCKED
  | REQUIRES_APPROVAL
  | SIMULATED
  deriving DecidableEq, Repr

/-- Source `ExecutionDecision.value` -/
def ExecutionDecision.value : ExecutionDecision → String
  | .APPROVED => "approved"
  | .BLOCKED => "blocked"
  | .REQUIRES_APPROVAL => "requires_approval"
  | .SIMULATED => "simulated"

/-- Source `ExecutionStep` (dataclass). -/
structure ExecutionStep where
  action : Dict
  decision : ExecutionDecision
  reasoning : String
  is_simulated : Bool := false
  deriving DecidableEq, Repr

/-- Source `ExecutionPlan` (dataclass); `created_at` omitted (wall clock). -/
structure ExecutionPlan where
  recommendation_id : String
  user_id : String
  email_job_id : String
  steps : List ExecutionStep := []
  is_simulated : Bool := true
  status : String := "planned"
  reasoning : String := ""
  deriving DecidableEq, Repr

/-- Source `ExecutionPlan.add_step` -/
def ExecutionPlan.add_step (p : ExecutionPlan) (action : Dict)
    (decision : ExecutionDecision) (reasoning : String) : ExecutionPlan :=
  { p with
    steps := p.steps ++
      [{ action := action, decision := decision, reasoning := reasoning,
         is_simulated := p.is_simulated }] }

/-- Source `ExecutionPlan.get_approved_actions` -/
def ExecutionPlan.get_approved_actions (p : ExecutionPlan) : List Dict :=
  (p.steps.filter (fun s => s.decision = ExecutionDecision.APPROVED)).map
    (fun s => s.action)

/-- Source `ExecutionPlan.get_blocked_actions` -/
def ExecutionPlan.get_blocked_actions (p : ExecutionPlan) : List Dict :=
  (p.steps.filter (fun s => s.decision = ExecutionDecision.BLOCKED)).map
    (fun s => s.action)

/-! ### backend/executor/action_executor.py -/

/-- The `ActionRecommendation` row as read by `plan_execution` /
`_generate_reasoning`.  `rule_names` is modelled in its list-of-strings
representation (the code also tolerates a JSON-encoded string, which it
decodes back to a list before use; the decoded form is what the rest of
the function consumes). -/
structure ActionRecommendation where
  id : String
  user_id : String
  email_job_id : String
  rule_names : List String
  confidence_score : Int
  deriving DecidableEq, Repr

/-- Source `ActionExecutor.validate_action` -/
def validate_action (action : Dict) : Bool :=
  if action.isEmpty then false
  else
    match action.lookup "type" with
    | none => false
    | some action_type =>
      if ¬ is_action_type_allowed action_type then false
      else (get_required_fields action_type).all
        (fun f => (action.lookup f).isSome)

/-- Source `ActionExecutor.decide_eligibility` -/
def decide_eligibility (action : Dict) : ExecutionDecision :=
  if ¬ validate_action action then ExecutionDecision.BLOCKED
  else ExecutionDecision.APPROVED

/-- Python `repr` of a list of strings, as an f-string renders
`{rule_names}` (no escaping needed on the names the claims use). -/
def pyReprStrList (l : List String) : String :=
  "[" ++ String.intercalate ", " (l.map (fun s => "'" ++ s ++ "'")) ++ "]"

/-- Source `ActionExecutor._generate_reasoning` -/
def executor_generate_reasoning (simulation_mode : Bool)
    (recommendation : ActionRecommendation) (actions : List Dict) : String :=
  let num_actions := actions.length
  let sim_marker := if simulation_mode then "[SIMULATION] " else ""
  sim_marker ++ "Plan for " ++ toString num_actions ++
    " recommended action(s) based on rules: " ++
    pyReprStrList recommendation.rule_names ++
    ". Confidence: " ++ toString recommendation.confidence_score ++ "/100"

/-- Source `ActionExecutor._generate_step_reasoning` -/
def generate_step_reasoning (action : Dict) (decision : ExecutionDecision) :
    String :=
  let action_type := dictGet action "type" (.str "unknown")
  match decision with
  | .APPROVED =>
    let priority := dictGet action "priority" (.str "default")
    let detail := if pyTruthy priority
      then " (priority=" ++ pyStr priority ++ ")" else ""
    "Action '" ++ pyStr action_type ++ "' is allowed and approved" ++ detail
  | .BLOCKED =>
    if ¬ is_action_type_allowed action_type then
      "Action type '" ++ pyStr action_type ++
        "' is not in allowed list. Blocked for safety."
    else
      "Action '" ++ pyStr action_type ++ "' failed validation. Blocked."
  | .REQUIRES_APPROVAL =>
    "Action '" ++ pyStr action_type ++ "' requires manual approval."
  | .SIMULATED =>
    "Action '" ++ pyStr action_type ++ "' decision: " ++
      ExecutionDecision.value .SIMULATED

/-- Source `ActionExecutor.plan_execution` -/
def plan_execution (simulation_mode : Bool)
    (recommendation : ActionRecommendation) (actions : List Dict) :
    ExecutionPlan :=
  let plan : ExecutionPlan :=
    { recommendation_id := recommendation.id
      user_id := recommendation.user_id
      email_job_id := recommendation.email_job_id
      is_simulated := simulation_mode
      status := if simulation_mode then "simulated" else "planned"
      reasoning := executor_generate_reasoning simulation_mode
        recommendation actions }
  actions.foldl
    (fun plan action =>
      let decision := decide_eligibility action
      let reasoning := generate_step_reasoning action decision
      plan.add_step action decision reasoning)
    plan

/-! ### A model of the Python `re` library calls used by the rule engine

`rule_engine._pattern_matches` uses `re.search(pattern, text)` and
`re.match(regex_pattern, text, re.IGNORECASE)`.  We model the regular
expressions those calls can receive: literals and escapes (including
`\n \t \r \f \v \0 \xNN` and the identity escapes), the classes
`\d \D \w \W \s \S`, `.`, the anchors `^ $ \A \Z \b \B` anywhere in
the pattern, the quantifiers `*` `+` `?` and `{m}` `{m,}` `{m,n}`
(with `?` after a quantifier read as the lazy marker, which does not
change which strings match, and with Python's malformed-`{}`-is-literal
fallback), groups `(...)`, `(?:...)`, `(?P<name>...)` and comments
`(?#...)`, lookaheads `(?=...)` `(?!...)`, alternation `|`, character
classes `[...]` with ranges, negation and escapes, and the inline
global flags `(?i)` `(?m)` `(?s)` (plus the no-op `a`/`u`) at the start
of the pattern (Python 3.11 semantics: global flags elsewhere are a
compile error).

Outside the modelled fragment: lookbehind, backreferences (numeric and
`(?P=name)`), conditional groups, scoped inline flags `(?i:...)`,
verbose mode `(?x)`, possessive quantifiers, and the rare escapes
`\uXXXX`/`\N{...}`/octal.  On those the model's compiler fails where
Python's may succeed, and `pattern_matches` then returns false; every
concrete pattern a theorem below evaluates lies inside the fragment,
where the model agrees with Python (locale mode `(?L)`, unknown
alphanumeric escapes, unbalanced groups, unterminated classes and
`nothing to repeat`/`multiple repeat` situations are compile errors in
Python too and are rejected here as well).

Matching is by Brzozowski derivatives extended with match-position
context: an anchor is a zero-width expression whose nullability is
decided from the previous character and the remaining suffix, and
lookaheads are resolved by a nested run of the matcher, whose nesting
depth is bounded by the lookahead depth of the compiled expression.
`.` does not match a newline unless DOTALL. -/

/-- One item of a character class: a single character, a range, or a
perl class such as `\w`. -/
inductive ClsItem where
  | ch (c : Char)
  | range (lo hi : Char)
  | pcl (k : Char)
  deriving DecidableEq, Repr

/-- Regular expressions (the compiled form). -/
inductive RE where
  | fail
  | eps
  | lit (c : Char)
  | anyChar
  | pcls (k : Char)
  | cls (neg : Bool) (items : List ClsItem)
  | anchorStart
  | anchorEnd
  | absStart
  | absEnd
  | wordB
  | notWordB
  | look (neg : Bool) (r : RE)
  | alt (a b : RE)
  | seq (a b : RE)
  | star (a : RE)
  deriving DecidableEq, Repr

/-- The `re` flags relevant to boolean matching. -/
structure ReFlags where
  ignorecase : Bool := false
  multiline : Bool := false
  dotall : Bool := false
  deriving DecidableEq, Repr

/-- Character comparison, optionally case-insensitive (`re.IGNORECASE`). -/
def charEqCI (ci : Bool) (a b : Char) : Bool :=
  if ci then a.toLower == b.toLower else a == b

/-- Python `\s` characters. -/
def pySpace (c : Char) : Bool :=
  c == ' ' || c == '\t' || c == '\n' || c == '\r' || c == '\x0b' || c == '\x0c'

/-- Python word characters (`\w`, ASCII range). -/
def isWordChar (c : Char) : Bool :=
  c.isAlphanum || c == '_'

/-- Semantics of the perl classes `\d \D \w \W \s \S`. -/
def pclsMatches (k : Char) (c : Char) : Bool :=
  match k with
  | 'd' => c.isDigit
  | 'D' => !c.isDigit
  | 'w' => isWordChar c
  | 'W' => !isWordChar c
  | 's' => pySpace c
  | 'S' => !pySpace c
  | _ => false

/-- Does a class item match a character? -/
def clsItemMatches (ci : Bool) (c : Char) : ClsItem → Bool
  | .ch d => charEqCI ci d c
  | .range lo hi =>
    (lo ≤ c && c ≤ hi) ||
      (ci && ((lo ≤ c.toLower && c.toLower ≤ hi) ||
              (lo ≤ c.toUpper && c.toUpper ≤ hi)))
  | .pcl k => pclsMatches k c

/-- Is the position between `prev` and the suffix `s` a `\b` boundary? -/
def atWordBoundary (prev : Option Char) (s : List Char) : Bool :=
  (match prev with | some c => isWordChar c | none => false) !=
    (match s with | c :: _ => isWordChar c | [] => false)

/-- Does the regex accept the empty string at this position?  `prev` is
the character before the position (`none` at position 0) and `s` the
remaining text; they decide the zero-width anchors.  `oracle` resolves
lookaheads (a nested run of the matcher). -/
def nullableCtx (oracle : RE → Option Char → List Char → Bool)
    (fl : ReFlags) (prev : Option Char) (s : List Char) : RE → Bool
  | .fail => false
  | .eps => true
  | .lit _ => false
  | .anyChar => false
  | .pcls _ => false
  | .cls _ _ => false
  | .anchorStart => prev.isNone || (fl.multiline && prev == some '\n')
  | .anchorEnd =>
    match s with
    | [] => true
    | '\n' :: rest => fl.multiline || rest.isEmpty
    | _ => false
  | .absStart => prev.isNone
  | .absEnd => s.isEmpty
  | .wordB => atWordBoundary prev s
  | .notWordB => !atWordBoundary prev s
  | .look neg r => (oracle r prev s) != neg
  | .alt a b =>
    nullableCtx oracle fl prev s a || nullableCtx oracle fl prev s b
  | .seq a b =>
    nullableCtx oracle fl prev s a && nullableCtx oracle fl prev s b
  | .star _ => true

/-- Brzozowski derivative with respect to the character `x`, in the
position context `(prev, s)` (needed because the nullability test in
the sequence rule is context-dependent). -/
def derivCtx (oracle : RE → Option Char → List Char → Bool) (fl : ReFlags)
    (prev : Option Char) (s : List Char) (x : Char) : RE → RE
  | .fail => .fail
  | .eps => .fail
  | .lit c => if charEqCI fl.ignorecase c x then .eps else .fail
  | .anyChar => if !fl.dotall && x == '\n' then .fail else .eps
  | .pcls k => if pclsMatches k x then .eps else .fail
  | .cls neg items =>
    if (items.any (clsItemMatches fl.ignorecase x)) != neg then .eps
    else .fail
  | .anchorStart => .fail
  | .anchorEnd => .fail
  | .absStart => .fail
  | .absEnd => .fail
  | .wordB => .fail
  | .notWordB => .fail
  | .look _ _ => .fail
  | .alt a b =>
    .alt (derivCtx oracle fl prev s x a) (derivCtx oracle fl prev s x b)
  | .seq a b =>
    if nullableCtx oracle fl prev s a then
      .alt (.seq (derivCtx oracle fl prev s x a) b)
        (derivCtx oracle fl prev s x b)
    else .seq (derivCtx oracle fl prev s x a) b
  | .star a => .seq (derivCtx oracle fl prev s x a) (.star a)

/-- Does some (possibly empty) prefix of `s` match, at the position
whose previous character is `prev`? -/
def matchHere (oracle : RE → Option Char → List Char → Bool)
    (fl : ReFlags) : RE → Option Char → List Char → Bool
  | r, prev, [] => nullableCtx oracle fl prev [] r
  | r, prev, c :: cs =>
    nullableCtx oracle fl prev (c :: cs) r ||
      matchHere oracle fl (derivCtx oracle fl prev (c :: cs) c r) (some c) cs

/-- Nesting depth of lookaheads; derivatives never increase it, so it
bounds how often the matcher re-enters itself. -/
def lookDepth : RE → Nat
  | .look _ r => lookDepth r + 1
  | .alt a b => max (lookDepth a) (lookDepth b)
  | .seq a b => max (lookDepth a) (lookDepth b)
  | .star a => lookDepth a
  | _ => 0

/-- The matcher, with the lookahead oracle tied by a depth budget (the
budget never runs out on a compiled pattern because `lookDepth`
strictly decreases into a lookahead). -/
def matchTopF : Nat → ReFlags → RE → Option Char → List Char → Bool
  | 0, _, _, _, _ => false
  | fuel + 1, fl, r, prev, s =>
    matchHere (fun r' p' s' => matchTopF fuel fl r' p' s') fl r prev s

/-- Embeds `re.match` semantics: some (possibly empty) prefix of the
text matches, starting at position 0. -/
def reMatch (fl : ReFlags) (r : RE) (s : List Char) : Bool :=
  matchTopF (lookDepth r + 1) fl r none s

/-- Try a match at every start position, tracking the previous
character for the anchors. -/
def searchFrom (fl : ReFlags) (r : RE) : Option Char → List Char → Bool
  | prev, [] => matchTopF (lookDepth r + 1) fl r prev []
  | prev, c :: cs =>
    matchTopF (lookDepth r + 1) fl r prev (c :: cs) ||
      searchFrom fl r (some c) cs

/-- Embeds `re.search` semantics: some substring, starting anywhere,
matches. -/
def reSearch (fl : ReFlags) (r : RE) (s : List Char) : Bool :=
  searchFrom fl r none s

/-! #### The pattern compiler -/

/-- What an open group will become when its `)` arrives. -/
inductive GroupKind where
  | plain
  | look (neg : Bool)
  deriving DecidableEq, Repr

/-- Quantifier state of the pending atom while compiling. -/
inductive QState where
  | plain
  | quantified
  | lazyQuant
  | anchor
  deriving DecidableEq, Repr

/-- Compiler mode: ordinary position, after a backslash, inside an
`\xNN` escape, just after `(`, after `(?`, inside `(?P...`, inside a
group name, inside a flags group, inside a comment group, inside a
`{...}` repeat spec, or inside a character class. -/
inductive PMode where
  | normal
  | escape
  | escX (acc : Option Char)
  | groupStart
  | groupExt
  | groupP
  | groupPName (needFirst : Bool)
  | flagAcc
  | comment
  | repSpec (acc : List Char)
  | clsStart (neg : Bool) (negAllowed : Bool)
  | clsEscape (neg : Bool) (items : List ClsItem)
  | clsBody (neg : Bool) (items : List ClsItem)
  | clsRange (neg : Bool) (items : List ClsItem) (lo : Char)
  deriving Repr

/-- Compiler state: open groups (each holding the enclosing level's
alternation accumulator and sequence built so far), the current level,
the pending atom, the mode, and the inline flags collected so far. -/
structure PState where
  stack : List (Option RE × RE × GroupKind)
  altAcc : Option RE
  done : RE
  last : Option (RE × QState)
  mode : PMode
  fl : ReFlags

/-- Append the pending atom (if any) to the sequence built so far. -/
def flushLast (done : RE) : Option (RE × QState) → RE
  | none => done
  | some (a, _) => .seq done a

/-- Close the current alternation level. -/
def levelClose (altAcc : Option RE) (done : RE) (last : Option (RE × QState)) :
    RE :=
  match altAcc with
  | none => flushLast done last
  | some al => .alt al (flushLast done last)

/-- Yield a new atom in the current level. -/
def pushAtom (st : PState) (a : RE) (q : QState) : PState :=
  { st with
    done := flushLast st.done st.last
    last := some (a, q)
    mode := .normal }

/-- Yield a run of literal-character atoms (used by the
malformed-`{}`-is-literal fallback, whose collected characters are only
digits and commas). -/
def pushLits (cs : List Char) (st : PState) : PState :=
  cs.foldl (fun s c => pushAtom s (.lit c) .plain) st

/-- Nothing has been compiled yet (only flag groups): the position at
which Python still accepts inline global flags. -/
def pAtStart (st : PState) : Bool :=
  st.stack.isEmpty && st.altAcc.isNone && (st.done == RE.eps) &&
    st.last.isNone

/-- Value of a hex digit (codepoint arithmetic: 48-57 are the digits,
97-102 and 65-70 the lower- and upper-case letters). -/
def hexDigitVal (c : Char) : Option Nat :=
  let n := c.toNat
  if 48 ≤ n && n ≤ 57 then some (n - 48)
  else if 97 ≤ n && n ≤ 102 then some (n - 87)
  else if 65 ≤ n && n ≤ 70 then some (n - 55)
  else none

/-- Digits to a number; `none` on the empty list. -/
def digitsToNat (l : List Char) : Option Nat :=
  if l.isEmpty then none
  else some (l.foldl (fun n c => n * 10 + (c.toNat - '0'.toNat)) 0)

/-- Parse the inside of a `{...}` repeat spec (digits and commas only):
`{m}`, `{m,}`, `{,n}`, `{m,n}`.  Returns `(min, max?)` with `none` as
the unbounded maximum, or `none` when the spec is malformed (which
Python treats as literal text). -/
def parseRepSpec (acc : List Char) : Option (Nat × Option Nat) :=
  match acc.splitOn ',' with
  | [m] => (digitsToNat m).map (fun v => (v, some v))
  | [m, n] =>
    some ((digitsToNat m).getD 0,
      match digitsToNat n with
      | some v => some v
      | none => none)
  | _ => none

/-- An expression repeated exactly `n` times. -/
def repeatCount (a : RE) : Nat → RE
  | 0 => .eps
  | n + 1 => .seq a (repeatCount a n)

/-- An expression repeated at most `n` times. -/
def optCount (a : RE) : Nat → RE
  | 0 => .eps
  | n + 1 => .seq (.alt a .eps) (optCount a n)

/-- `a{m,n}` (`n = none` is unbounded). -/
def expandRepeat (a : RE) (m : Nat) (n : Option Nat) : RE :=
  match n with
  | none => .seq (repeatCount a m) (.star a)
  | some nv => .seq (repeatCount a m) (optCount a (nv - m))

/-- Record an inline global flag (`a` and `u` do not change the
modelled semantics). -/
def applyFlag (c : Char) (st : PState) : PState :=
  if c == 'i' then { st with fl := { st.fl with ignorecase := true } }
  else if c == 'm' then { st with fl := { st.fl with multiline := true } }
  else if c == 's' then { st with fl := { st.fl with dotall := true } }
  else st

/-- One compiler step in ordinary position. -/
def normalStep (c : Char) (st : PState) : Option PState :=
  if c == '|' then
    some { st with
           altAcc := some (levelClose st.altAcc st.done st.last)
           done := .eps
           last := none
           mode := .normal }
  else if c == '(' then
    some { st with mode := .groupStart }
  else if c == ')' then
    match st.stack with
    | [] => none
    | (al, dn, kind) :: stk =>
      let g := levelClose st.altAcc st.done st.last
      let atom : RE :=
        match kind with
        | .plain => g
        | .look neg => RE.look neg g
      some { st with
             stack := stk
             altAcc := al
             done := dn
             last := some (atom, QState.plain)
             mode := .normal }
  else if c == '*' then
    match st.last with
    | some (a, .plain) =>
      some { st with last := some (.star a, .quantified), mode := .normal }
    | _ => none
  else if c == '+' then
    match st.last with
    | some (a, .plain) =>
      some { st with
             last := some (.seq a (.star a), .quantified)
             mode := .normal }
    | _ => none
  else if c == '?' then
    match st.last with
    | some (a, .plain) =>
      some { st with
             last := some (.alt a .eps, .quantified)
             mode := .normal }
    | some (a, .quantified) =>
      some { st with last := some (a, .lazyQuant), mode := .normal }
    | _ => none
  else if c == '{' then
    some { st with mode := .repSpec [] }
  else if c == '.' then some (pushAtom st .anyChar .plain)
  else if c == '^' then some (pushAtom st .anchorStart .anchor)
  else if c == '$' then some (pushAtom st .anchorEnd .anchor)
  else if c == '\\' then some { st with mode := .escape }
  else if c == '[' then
    some { st with
           done := flushLast st.done st.last
           last := none
           mode := .clsStart false true }
  else some (pushAtom st (.lit c) .plain)

/-- One compiler step after a backslash.  An unknown alphanumeric
escape is a compile error in Python as well; digits 1-9 would be
backreferences, outside the fragment. -/
def escapeStep (c : Char) (st : PState) : Option PState :=
  if c == 'd' || c == 'D' || c == 'w' || c == 'W' || c == 's' ||
      c == 'S' then
    some (pushAtom st (.pcls c) .plain)
  else if c == 'b' then some (pushAtom st .wordB .anchor)
  else if c == 'B' then some (pushAtom st .notWordB .anchor)
  else if c == 'A' then some (pushAtom st .absStart .anchor)
  else if c == 'Z' then some (pushAtom st .absEnd .anchor)
  else if c == 'n' then some (pushAtom st (.lit '\n') .plain)
  else if c == 't' then some (pushAtom st (.lit '\t') .plain)
  else if c == 'r' then some (pushAtom st (.lit '\r') .plain)
  else if c == 'f' then some (pushAtom st (.lit '\x0c') .plain)
  else if c == 'v' then some (pushAtom st (.lit '\x0b') .plain)
  else if c == '0' then some (pushAtom st (.lit '\x00') .plain)
  else if c == 'x' then some { st with mode := .escX none }
  else if c.isAlphanum then none
  else some (pushAtom st (.lit c) .plain)

/-- One compiler step inside `\xNN`. -/
def escXStep (acc : Option Char) (c : Char) (st : PState) : Option PState :=
  match hexDigitVal c with
  | none => none
  | some v =>
    match acc with
    | none => some { st with mode := .escX (some c) }
    | some h =>
      match hexDigitVal h with
      | none => none
      | some hv => some (pushAtom st (.lit (Char.ofNat (hv * 16 + v))) .plain)

/-- One compiler step just after `(`. -/
def groupStartStep (c : Char) (st : PState) : Option PState :=
  if c == '?' then some { st with mode := .groupExt }
  else
    normalStep c
      { st with
        stack := (st.altAcc, flushLast st.done st.last, GroupKind.plain) ::
          st.stack,
        altAcc := none, done := .eps, last := none, mode := .normal }

/-- One compiler step just after `(?`. -/
def groupExtStep (c : Char) (st : PState) : Option PState :=
  let pushKind (k : GroupKind) : PState :=
    { st with
      stack := (st.altAcc, flushLast st.done st.last, k) :: st.stack,
      altAcc := none, done := .eps, last := none, mode := .normal }
  if c == ':' then some (pushKind .plain)
  else if c == '=' then some (pushKind (.look false))
  else if c == '!' then some (pushKind (.look true))
  else if c == '#' then some { st with mode := .comment }
  else if c == 'P' then some { st with mode := .groupP }
  else if c == 'i' || c == 'm' || c == 's' || c == 'a' || c == 'u' then
    if pAtStart st then some (applyFlag c { st with mode := .flagAcc })
    else none
  else none

/-- One compiler step inside a flags group `(?ims...)`. -/
def flagStep (c : Char) (st : PState) : Option PState :=
  if c == ')' then some { st with mode := .normal }
  else if c == 'i' || c == 'm' || c == 's' || c == 'a' || c == 'u' then
    some (applyFlag c st)
  else none

/-- One compiler step inside a group name `(?P<...>`. -/
def groupPNameStep (needFirst : Bool) (c : Char) (st : PState) :
    Option PState :=
  if c == '>' then
    if needFirst then none
    else
      some { st with
        stack := (st.altAcc, flushLast st.done st.last, GroupKind.plain) ::
          st.stack,
        altAcc := none, done := .eps, last := none, mode := .normal }
  else if needFirst && (c.isAlpha || c == '_') then
    some { st with mode := .groupPName false }
  else if ¬ needFirst && (c.isAlphanum || c == '_') then some st
  else none

/-- One compiler step inside a `{...}` repeat spec. -/
def repSpecStep (acc : List Char) (c : Char) (st : PState) :
    Option PState :=
  if c.isDigit || c == ',' then
    some { st with mode := .repSpec (acc ++ [c]) }
  else if c == '}' then
    match parseRepSpec acc with
    | none =>
      some (pushLits ('{' :: acc ++ ['}']) { st with mode := .normal })
    | some (m, n) =>
      let bad :=
        (match n with
          | some nv => nv < m || 4294967296 ≤ nv
          | none => false) || 4294967296 ≤ m
      if bad then none
      else
        match st.last with
        | some (a, .plain) =>
          some { st with
                 last := some (expandRepeat a m n, .quantified)
                 mode := .normal }
        | _ => none
  else normalStep c (pushLits ('{' :: acc) { st with mode := .normal })

/-- One compiler step at the first character of a class body. -/
def clsStartStep (neg negAllowed : Bool) (c : Char) (st : PState) :
    Option PState :=
  if c == '^' && negAllowed then
    some { st with mode := .clsStart true false }
  else if c == '\\' then some { st with mode := .clsEscape neg [] }
  else some { st with mode := .clsBody neg [.ch c] }

/-- One compiler step after a backslash inside a class (`\b` is the
backspace character there). -/
def clsEscapeStep (neg : Bool) (items : List ClsItem) (c : Char)
    (st : PState) : Option PState :=
  if c == 'd' || c == 'D' || c == 'w' || c == 'W' || c == 's' ||
      c == 'S' then
    some { st with mode := .clsBody neg (.pcl c :: items) }
  else if c == 'n' then
    some { st with mode := .clsBody neg (.ch '\n' :: items) }
  else if c == 't' then
    some { st with mode := .clsBody neg (.ch '\t' :: items) }
  else if c == 'r' then
    some { st with mode := .clsBody neg (.ch '\r' :: items) }
  else if c == 'f' then
    some { st with mode := .clsBody neg (.ch '\x0c' :: items) }
  else if c == 'v' then
    some { st with mode := .clsBody neg (.ch '\x0b' :: items) }
  else if c == 'b' then
    some { st with mode := .clsBody neg (.ch '\x08' :: items) }
  else if c == '0' then
    some { st with mode := .clsBody neg (.ch '\x00' :: items) }
  else if c.isAlphanum then none
  else some { st with mode := .clsBody neg (.ch c :: items) }

/-- One compiler step inside a class body. -/
def clsBodyStep (neg : Bool) (items : List ClsItem) (c : Char)
    (st : PState) : Option PState :=
  if c == ']' then some (pushAtom st (.cls neg items.reverse) .plain)
  else if c == '\\' then some { st with mode := .clsEscape neg items }
  else if c == '-' then
    match items with
    | .ch lo :: items' =>
      some { st with mode := .clsRange neg items' lo }
    | _ => some { st with mode := .clsBody neg (.ch '-' :: items) }
  else some { st with mode := .clsBody neg (.ch c :: items) }

/-- One compiler step after `lo-` inside a class. -/
def clsRangeStep (neg : Bool) (items : List ClsItem) (lo : Char) (c : Char)
    (st : PState) : Option PState :=
  if c == ']' then
    some (pushAtom st
      (.cls neg ((ClsItem.ch '-' :: ClsItem.ch lo :: items)).reverse)
      .plain)
  else if c == '\\' then none
  else if lo ≤ c then
    some { st with mode := .clsBody neg (.range lo c :: items) }
  else none

/-- One compiler step, dispatched on the mode. -/
def pStep (c : Char) (st : PState) : Option PState :=
  match st.mode with
  | .normal => normalStep c st
  | .escape => escapeStep c st
  | .escX acc => escXStep acc c st
  | .groupStart => groupStartStep c st
  | .groupExt => groupExtStep c st
  | .groupP =>
    if c == '<' then some { st with mode := .groupPName true } else none
  | .groupPName needFirst => groupPNameStep needFirst c st
  | .flagAcc => flagStep c st
  | .comment => if c == ')' then some { st with mode := .normal } else some st
  | .repSpec acc => repSpecStep acc c st
  | .clsStart neg na => clsStartStep neg na c st
  | .clsEscape neg items => clsEscapeStep neg items c st
  | .clsBody neg items => clsBodyStep neg items c st
  | .clsRange neg items lo => clsRangeStep neg items lo c st

/-- Finish the compilation: only an ordinary position (or an
unterminated `{...}`, which is literal text) with no open group is a
complete pattern. -/
def pFinish (st : PState) : Option (ReFlags × RE) :=
  match st.mode with
  | .normal =>
    match st.stack with
    | [] => some (st.fl, levelClose st.altAcc st.done st.last)
    | _ => none
  | .repSpec acc =>
    match st.stack with
    | [] =>
      let st' := pushLits ('{' :: acc) st
      some (st'.fl, levelClose st'.altAcc st'.done st'.last)
    | _ => none
  | _ => none

/-- Run the compiler over the pattern. -/
def parseLoop : List Char → PState → Option (ReFlags × RE)
  | [], st => pFinish st
  | c :: rest, st =>
    match pStep c st with
    | none => none
    | some st' => parseLoop rest st'

/-- The compiler's initial state. -/
def initPState : PState :=
  { stack := [], altAcc := none, done := .eps, last := none,
    mode := .normal, fl := {} }

/-- Compile a pattern; `none` is a compilation error. -/
def parseRE (p : List Char) : Option (ReFlags × RE) :=
  parseLoop p initPState

/-- Embeds `pattern.startswith("^") or pattern.startswith("(")` -/
def startsWithRegex (p : List Char) : Bool :=
  match p with
  | c :: _ => c == '^' || c == '('
  | [] => false

/-- Embeds Python `str.replace` for a single-character needle: every
occurrence is replaced (occurrences of one character cannot overlap). -/
def pyReplaceChar (l : List Char) (target : Char) (repl : List Char) :
    List Char :=
  l.flatMap (fun c => if c == target then repl else [c])

/-- The three `replace` passes of `_pattern_matches`:
`.replace(".", "\\.").replace("*", ".*").replace("?", ".")`. -/
def wildcardToRegex (p : List Char) : List Char :=
  pyReplaceChar (pyReplaceChar (pyReplaceChar p '.' ['\\', '.']) '*'
    ['.', '*']) '?' ['.']

/-- Source `RuleEngine._pattern_matches`.  The regex branch is
`re.search(pattern, text)` (no flags beyond the pattern's inline ones);
the wildcard branch is `re.match(regex_pattern, text, re.IGNORECASE)`.
Any compilation failure is caught and yields `False`. -/
def pattern_matches (pattern text : String) : Bool :=
  let p := pattern.data
  if startsWithRegex p then
    match parseRE p with
    | none => false
    | some (fl, r) => reSearch fl r text.data
  else
    match parseRE (wildcardToRegex p) with
    | none => false
    | some (fl, r) => reMatch { fl with ignorecase := true } r text.data

/-- The wildcard-to-regex translation as the spec words it, written as
one character-wise pass: `.` is escaped, `*` becomes "zero or more
characters", `?` becomes "exactly one character". -/
def specWildcardRegex (p : List Char) : List Char :=
  p.flatMap (fun c =>
    if c == '.' then ['\\', '.']
    else if c == '*' then ['.', '*']
    else if c == '?' then ['.']
    else [c])

/-- Modelled from the spec: pattern matching exactly as the spec's
"Pattern matching" paragraph states it, including its claim that the
regex branch is a case-insensitive search. -/
def spec_pattern_matches (pattern text : String) : Bool :=
  let p := pattern.data
  if startsWithRegex p then
    match parseRE p with
    | none => false
    | some (fl, r) => reSearch { fl with ignorecase := true } r text.data
  else
    match parseRE (specWildcardRegex p) with
    | none => false
    | some (fl, r) => reMatch { fl with ignorecase := true } r text.data

/-- The spec's pattern matching, amended: the regex branch is a
case-sensitive search (which is what the source does). -/
def spec_pattern_matches_cs (pattern text : String) : Bool :=
  let p := pattern.data
  if startsWithRegex p then
    match parseRE p with
    | none => false
    | some (fl, r) => reSearch fl r text.data
  else
    match parseRE (specWildcardRegex p) with
    | none => false
    | some (fl, r) => reMatch { fl with ignorecase := true } r text.data

/-! ### backend/llm/rule_engine.py -/

/-- Source `RuleEvaluationResult` -/
structure RuleEvaluationResult where
  matched_rules : List Dict
  recommended_actions : List Dict
  safety_flags : List String
  confidence_score : Int
  reasoning : String
  deriving DecidableEq, Repr

/-- A rule's `conditions` dict.  Every key is optional in the source and
read with a default (`[]`, resp. `0` for `min_confidence`); an absent
key and a key holding the default are indistinguishable to the code, so
the embedding stores the defaulted values. -/
structure Conditions where
  category : List String := []
  min_confidence : ℚ := 0
  sender_pattern : List String := []
  subject_keywords : List String := []
  body_keywords : List String := []
  labels : List String := []
  deriving DecidableEq, Repr

/-- A rule definition.  `name` is read with `rule["name"]` (a rule
without a name would raise at evaluation, outside the model);
`priority` is read with `rule.get("priority", 5)` and `is_active` with
`rule.get("is_active", True)`, so absent keys are stored defaulted. -/
structure Rule where
  name : String
  conditions : Conditions := {}
  actions : List Dict := []
  priority : PyVal := .int 5
  is_active : Bool := true
  safety_flags : List String := []
  deriving DecidableEq, Repr

/-- The `email_context` dict built by `evaluate`. -/
structure EmailContext where
  classification : String
  confidence : ℚ
  sender : String
  subject : String
  body : String
  labels : List String
  deriving DecidableEq, Repr

/-- Python substring containment `needle in hay` on character lists. -/
def subMem (needle : List Char) : List Char → Bool
  | [] => needle.isEmpty
  | c :: cs => needle.isPrefixOf (c :: cs) || subMem needle cs

/-- Embeds `keyword.lower() in text.lower()` (ASCII case folding). -/
def lowerContains (hay kw : String) : Bool :=
  subMem (kw.data.map Char.toLower) (hay.data.map Char.toLower)

/-- Source `RuleEngine._rule_matches` -/
def rule_matches (rule : Rule) (ctx : EmailContext) : Bool :=
  let c := rule.conditions
  if ¬ c.category.isEmpty && ¬ c.category.contains ctx.classification then
    false
  else if ctx.confidence < c.min_confidence then false
  else if ¬ c.sender_pattern.isEmpty &&
      ¬ c.sender_pattern.any (fun p => pattern_matches p ctx.sender) then
    false
  else if ¬ c.subject_keywords.isEmpty &&
      ¬ c.subject_keywords.any (fun kw => lowerContains ctx.subject kw) then
    false
  else if ¬ c.body_keywords.isEmpty &&
      ¬ c.body_keywords.any (fun kw => lowerContains ctx.body kw) then
    false
  else if ¬ c.labels.isEmpty &&
      ¬ c.labels.any (fun l => ctx.labels.contains l) then
    false
  else true

/-- Source `RuleEngine.VALID_ACTIONS` (type, human-readable description). -/
def VALID_ACTIONS : List (String × String) :=
  [("archive", "Move email to archive"),
   ("label", "Apply label/tag to email"),
   ("flag", "Flag email for follow-up"),
   ("snooze", "Snooze email for later"),
   ("read", "Mark as read"),
   ("spam", "Report as spam"),
   ("reply_draft", "Draft a reply"),
   ("notify", "Send notification to user"),
   ("priority", "Set priority level"),
   ("delegate", "Suggest delegation")]

/-- Source `RuleEngine._create_action`.  `action_spec.get("type")` yields
`None` when the key is absent; `None` (and any non-string value) is not
a key of `VALID_ACTIONS`, so those specs are dropped. -/
def create_action (action_spec : Dict) (_ctx : EmailContext) : Option Dict :=
  match action_spec.lookup "type" with
  | some (.str ty) =>
    match VALID_ACTIONS.lookup ty with
    | none => none
    | some desc =>
      let base : Dict :=
        [("type", .str ty), ("description", .str desc),
         ("priority", dictGet action_spec "priority" (.int 5)),
         ("reason", dictGet action_spec "reason" (.str ""))]
      some (base ++
        (if ty == "label" then
          [("label", dictGet action_spec "label" (.str ""))]
        else if ty == "snooze" then
          [("hours", dictGet action_spec "hours" (.int 24))]
        else if ty == "reply_draft" then
          [("template", dictGet action_spec "template" (.str ""))]
        else if ty == "priority" then
          [("level", dictGet action_spec "level" (.str "normal"))]
        else if ty == "delegate" then
          [("recipient", dictGet action_spec "recipient" (.str ""))]
        else []))
  | _ => none

/-- Multiplication on `ℚ`, implemented through `mkRat` so that concrete
instances reduce in the kernel (the library's `Rat.mul` is marked
irreducible).  `ratMul_eq_mul` below proves it is multiplication. -/
def ratMul (a b : ℚ) : ℚ :=
  mkRat (a.num * b.num) (a.den * b.den)

/-- Subtraction on `ℚ`, implemented through `mkRat`; `ratSub_eq_sub`
below proves it is subtraction. -/
def ratSub (a b : ℚ) : ℚ :=
  mkRat (a.num * (b.den : Int) - b.num * (a.den : Int)) (a.den * b.den)

/-- Python `int()` on a rational: truncation toward zero. -/
def pyInt (q : ℚ) : Int :=
  if 0 ≤ q then q.floor else q.ceil

/-- Python `round()` / `"{:.0f}"` rounding on a rational: nearest
integer, ties to even. -/
def pyRound (q : ℚ) : Int :=
  let frac := ratSub q (Rat.ofInt q.floor)
  if frac < mkRat 1 2 then q.floor
  else if mkRat 1 2 < frac then q.floor + 1
  else if q.floor % 2 = 0 then q.floor else q.floor + 1

/-- Source `RuleEngine._calculate_confidence` -/
def calculate_confidence (matched_rules : List Dict) (ctx : EmailContext) :
    Int :=
  if matched_rules.isEmpty then 0
  else
    let base_score := pyInt (ratMul ctx.confidence 100)
    let rule_boost : Int := min ((matched_rules.length : Int) * 10) 30
    let base_score :=
      if ctx.confidence < mkRat 6 10 then max (base_score - 20) 0
      else base_score
    max (min (base_score + rule_boost) 100) 0

/-- Source `RuleEngine._generate_reasoning` -/
def engine_generate_reasoning (matched_rules : List Dict)
    (actions : List Dict) (ctx : EmailContext) : String :=
  let parts : List String :=
    ["Email classified as '" ++ ctx.classification ++ "' with " ++
      toString (pyRound (ratMul ctx.confidence 100)) ++ "% confidence."]
  let parts := if ¬ matched_rules.isEmpty then
      parts ++ ["Matched rules: " ++
        String.intercalate ", "
          (matched_rules.map (fun r => pyStr (dictGet r "name" (.str "")))) ++
        "."]
    else parts
  let parts := if ¬ actions.isEmpty then
      parts ++ ["Recommending actions: " ++
        String.intercalate ", "
          (actions.map (fun a => pyStr (dictGet a "type" (.str "")))) ++ "."]
    else parts
  String.intercalate " " parts

/-- The key of `recommended_actions.sort`: `x.get("priority", 5)`.
Python booleans are integers; a string-valued priority would make the
Python sort raise a `TypeError`, which the model totalizes to key `0`
(no claim exercises the order of such actions). -/
def priorityKey (a : Dict) : Int :=
  match a.lookup "priority" with
  | some (.int n) => n
  | some (.bool b) => if b then 1 else 0
  | some (.str _) => 0
  | none => 5

/-- Insert into a descending-by-key list, before the first element of
equal or smaller key (the element being inserted originated earlier in
the input, so this keeps the stable order). -/
def insertDesc (x : Dict) : List Dict → List Dict
  | [] => [x]
  | y :: ys =>
    if priorityKey y ≤ priorityKey x then x :: y :: ys
    else y :: insertDesc x ys

/-- Embeds `list.sort(key=priority, reverse=True)`: stable sort, descending.
Embedded as a stable insertion sort, which produces the same list as
any stable descending sort. -/
def pySortByPriority : List Dict → List Dict
  | [] => []
  | x :: xs => insertDesc x (pySortByPriority xs)

/-- The rule loop of `RuleEngine.evaluate`: matched-rule records, the
materialized actions (in rule order, then template order), and the
accumulated safety flags. -/
def evalRules (rules : List Rule) (ctx : EmailContext) :
    List Dict × List Dict × List String :=
  match rules with
  | [] => ([], [], [])
  | r :: rs =>
    let rest := evalRules rs ctx
    if r.is_active && rule_matches r ctx then
      ([("name", .str r.name), ("priority", r.priority)] :: rest.1,
       (r.actions.filterMap (fun s => create_action s ctx)) ++ rest.2.1,
       r.safety_flags ++ rest.2.2)
    else rest

/-- Source `RuleEngine.evaluate` -/
def evaluate (rules : List Rule) (classification : String) (confidence : ℚ)
    (sender subject body : String) (labels : List String) :
    RuleEvaluationResult :=
  let ctx : EmailContext :=
    ⟨classification, confidence, sender, subject, body, labels⟩
  let acc := evalRules rules ctx
  let matched := acc.1
  let recommended := pySortByPriority acc.2.1
  { matched_rules := matched
    recommended_actions := recommended
    safety_flags := acc.2.2
    confidence_score :=
      if matched.isEmpty then 0 else calculate_confidence matched ctx
    reasoning :=
      if matched.isEmpty then ""
      else engine_generate_reasoning matched recommended ctx }

/-- Source `RuleEngine._get_default_rules` -/
def default_rules : List Rule :=
  [{ name := "Flag important emails"
     conditions := { category := ["important"], min_confidence := mkRat 7 10 }
     actions := [[("type", .str "flag"), ("priority", .int 9),
       ("reason", .str "High-priority email flagged for immediate attention")]]
     priority := .int 9 },
   { name := "Archive promotional emails"
     conditions := { category := ["promotional"], min_confidence := mkRat 8 10 }
     actions := [[("type", .str "archive"), ("priority", .int 8),
        ("reason", .str "Promotional content archived")],
       [("type", .str "label"), ("label", .str "Promotions"),
        ("priority", .int 7), ("reason", .str "Tagged for organization")]]
     priority := .int 5 },
   { name := "Mark spam as read"
     conditions := { category := ["spam"], min_confidence := mkRat 85 100 }
     actions := [[("type", .str "read"), ("priority", .int 9),
        ("reason", .str "Spam marked as read to reduce visual clutter")],
       [("type", .str "spam"), ("priority", .int 8),
        ("reason", .str "Report to spam service")]]
     priority := .int 7 },
   { name := "Flag follow-up emails"
     conditions := { category := ["followup"], min_confidence := mkRat 6 10 }
     actions := [[("type", .str "flag"), ("priority", .int 9),
        ("reason", .str "Follow-up needed")],
       [("type", .str "snooze"), ("hours", .int 24), ("priority", .int 8),
        ("reason", .str "Snooze for tomorrow")]]
     priority := .int 8 },
   { name := "Draft replies for actionable emails"
     conditions := { category := ["actionable"], min_confidence := mkRat 75 100 }
     actions := [[("type", .str "reply_draft"),
        ("template",
         .str "Thank you for your email. I will review and respond shortly."),
        ("priority", .int 7),
        ("reason", .str "Standard acknowledgment template")]]
     priority := .int 6 }]

/-- Modelled from the spec's Confidence-scoring paragraph, word for
word: `base = round(classification_confidence * 100)` with Python
rounding, the low-confidence penalty, `boost = min(10 * n, 30)`,
`min(base + boost, 100)` floored at 0. -/
def specConfidenceScore (conf : ℚ) (numRules : ℕ) : Int :=
  let base := pyRound (ratMul conf 100)
  let base := if conf < mkRat 6 10 then max (base - 20) 0 else base
  let boost : Int := min (10 * (numRules : Int)) 30
  max (min (base + boost) 100) 0

/-- The spec's confidence formula amended: `base` is
`int(classification_confidence * 100)` (truncation), as the source
computes it, not `round(...)`. -/
def specConfidenceScoreTrunc (conf : ℚ) (numRules : ℕ) : Int :=
  let base := pyInt (ratMul conf 100)
  let base := if conf < mkRat 6 10 then max (base - 20) 0 else base
  let boost : Int := min (10 * (numRules : Int)) 30
  max (min (base + boost) 100) 0

/-- The validity predicate exactly as claim C4 words it: additionally
to the whitelist and required-field checks, `label` requires a
NON-EMPTY `label` field. -/
def claimValidAction (action : Dict) : Bool :=
  if action.isEmpty then false
  else
    match action.lookup "type" with
    | none => false
    | some ty =>
      if ¬ is_action_type_allowed ty then false
      else if ty == .str "label" then
        match action.lookup "label" with
        | some v => pyTruthy v
        | none => false
      else true

/-! ## Bridge lemmas for the reducible rational arithmetic -/

theorem ratMul_eq_mul (a b : ℚ) : ratMul a b = a * b := by
  have ha : ((a.den : ℚ)) ≠ 0 := Nat.cast_ne_zero.mpr a.den_nz
  have hb : ((b.den : ℚ)) ≠ 0 := Nat.cast_ne_zero.mpr b.den_nz
  rw [ratMul, Rat.mkRat_eq_div]
  conv_rhs => rw [← Rat.num_div_den a, ← Rat.num_div_den b]
  rw [div_mul_div_comm]
  push_cast
  ring

theorem ratSub_eq_sub (a b : ℚ) : ratSub a b = a - b := by
  have ha : ((a.den : ℚ)) ≠ 0 := Nat.cast_ne_zero.mpr a.den_nz
  have hb : ((b.den : ℚ)) ≠ 0 := Nat.cast_ne_zero.mpr b.den_nz
  rw [ratSub, Rat.mkRat_eq_div]
  conv_rhs => rw [← Rat.num_div_den a, ← Rat.num_div_den b]
  rw [div_sub_div _ _ ha hb]
  push_cast
  ring

/-! ## Execution-plan lemmas -/

/-- The step built by `plan_execution` for one input action. -/
def stepFor (sim : Bool) (a : Dict) : ExecutionStep :=
  { action := a
    decision := decide_eligibility a
    reasoning := generate_step_reasoning a (decide_eligibility a)
    is_simulated := sim }

theorem plan_execution_foldl (acts : List Dict) (p : ExecutionPlan) :
    (acts.foldl
      (fun plan action =>
        plan.add_step action (decide_eligibility action)
          (generate_step_reasoning action (decide_eligibility action)))
      p).steps = p.steps ++ acts.map (stepFor p.is_simulated) ∧
    (acts.foldl
      (fun plan action =>
        plan.add_step action (decide_eligibility action)
          (generate_step_reasoning action (decide_eligibility action)))
      p).status = p.status ∧
    (acts.foldl
      (fun plan action =>
        plan.add_step action (decide_eligibility action)
          (generate_step_reasoning action (decide_eligibility action)))
      p).is_simulated = p.is_simulated := by
  induction acts generalizing p with
  | nil => simp
  | cons a as ih =>
    obtain ⟨h1, h2, h3⟩ := ih
      (p.add_step a (decide_eligibility a)
        (generate_step_reasoning a (decide_eligibility a)))
    refine ⟨?_, ?_, ?_⟩
    · rw [List.foldl_cons, h1]
      simp [ExecutionPlan.add_step, stepFor, List.append_assoc]
    · rw [List.foldl_cons, h2]
      rfl
    · rw [List.foldl_cons, h3]
      rfl

theorem plan_execution_steps_eq (sim : Bool) (rec : ActionRecommendation)
    (acts : List Dict) :
    (plan_execution sim rec acts).steps = acts.map (stepFor sim) ∧
    (plan_execution sim rec acts).status =
      (if sim then "simulated" else "planned") ∧
    (plan_execution sim rec acts).is_simulated = sim := by
  obtain ⟨h1, h2, h3⟩ := plan_execution_foldl acts
    { recommendation_id := rec.id
      user_id := rec.user_id
      email_job_id := rec.email_job_id
      is_simulated := sim
      status := if sim then "simulated" else "planned"
      reasoning := executor_generate_reasoning sim rec acts }
  exact ⟨by simpa using h1, by simpa using h2, by simpa using h3⟩

/-- Claim C1: `plan_execution` appends exactly one step per input
action, in input order (its step list is the input list mapped to
steps, so no step is ever dropped and the count always matches), and
the plan status is `"simulated"` in simulation mode, `"planned"`
otherwise. -/
theorem plan_execution_step_per_action (sim : Bool)
    (rec : ActionRecommendation) (acts : List Dict) :
    (plan_execution sim rec acts).steps = acts.map (stepFor sim) ∧
    (plan_execution sim rec acts).steps.length = acts.length ∧
    (plan_execution sim rec acts).status =
      (if sim then "simulated" else "planned") := by
  obtain ⟨h1, h2, _⟩ := plan_execution_steps_eq sim rec acts
  exact ⟨h1, by rw [h1, List.length_map], h2⟩

theorem filter_decision_length (l : List ExecutionStep)
    (h : ∀ st ∈ l, st.decision = ExecutionDecision.APPROVED ∨
      st.decision = ExecutionDecision.BLOCKED) :
    (l.filter (fun s => s.decision = ExecutionDecision.APPROVED)).length +
      (l.filter (fun s => s.decision = ExecutionDecision.BLOCKED)).length =
      l.length := by
  induction l with
  | nil => simp
  | cons x xs ih =>
    have hx := h x (List.mem_cons_self x xs)
    have hsum := ih (fun st hst => h st (List.mem_cons_of_mem x hst))
    rcases hx with hx | hx <;> simp [List.filter_cons, hx] <;> omega

/-- Claim C9: every step of a plan produced by `plan_execution` carries
decision `APPROVED` or `BLOCKED` (never `REQUIRES_APPROVAL` or
`SIMULATED`), so the approved and blocked action lists together account
for every step. -/
theorem plan_decisions_approved_or_blocked (sim : Bool)
    (rec : ActionRecommendation) (acts : List Dict) :
    (∀ st ∈ (plan_execution sim rec acts).steps,
      st.decision = ExecutionDecision.APPROVED ∨
        st.decision = ExecutionDecision.BLOCKED) ∧
    (plan_execution sim rec acts).get_approved_actions.length +
      (plan_execution sim rec acts).get_blocked_actions.length =
      (plan_execution sim rec acts).steps.length := by
  obtain ⟨hsteps, -, -⟩ := plan_execution_steps_eq sim rec acts
  have hdec : ∀ st ∈ (plan_execution sim rec acts).steps,
      st.decision = ExecutionDecision.APPROVED ∨
        st.decision = ExecutionDecision.BLOCKED := by
    intro st hst
    rw [hsteps] at hst
    obtain ⟨a, -, rfl⟩ := List.mem_map.mp hst
    unfold stepFor decide_eligibility
    by_cases hv : validate_action a <;> simp [hv]
  refine ⟨hdec, ?_⟩
  rw [ExecutionPlan.get_approved_actions, ExecutionPlan.get_blocked_actions,
    List.length_map, List.length_map]
  exact filter_decision_length _ hdec

/-- Witness for C9 at a concrete plan: one valid and one invalid
action. -/
theorem plan_decisions_approved_or_blocked_witness :
    (stepFor true [("type", PyVal.str "flag")]).decision =
      ExecutionDecision.APPROVED ∨
    (stepFor true [("type", PyVal.str "flag")]).decision =
      ExecutionDecision.BLOCKED :=
  (plan_decisions_approved_or_blocked true ⟨"r1", "u1", "e1", ["rule"], 90⟩
    [[("type", PyVal.str "flag")]]).1
    (stepFor true [("type", PyVal.str "flag")]) (by decide)

/-! ## Validation (C4) -/

/-- Claim C4 counterexample: an action of type `label` whose `label`
field is present but EMPTY passes `validate_action`, while the claim's
predicate (which demands a non-empty `label`) rejects it. -/
theorem validate_action_empty_label_cex :
    validate_action [("type", PyVal.str "label"), ("label", PyVal.str "")] =
      true ∧
    claimValidAction [("type", PyVal.str "label"), ("label", PyVal.str "")] =
      false := by
  decide

/-- Claim C4 (amended): `validate_action` returns false exactly when the
action is empty, lacks a `type` key, the type is outside the whitelist,
or a required field is missing, where `label` uniquely requires the
`label` field to be PRESENT (it may be empty) and all other allowed
types require only `type`; and `decide_eligibility` is `BLOCKED`
exactly on validation failure, `APPROVED` otherwise. -/
theorem validate_action_characterization :
    (∀ a : Dict, validate_action a = true ↔
      (a ≠ [] ∧ ∃ v, a.lookup "type" = some v ∧
        is_action_type_allowed v = true ∧
        ∀ f ∈ get_required_fields v, (a.lookup f).isSome)) ∧
    (∀ ty ∈ ALLOWED_ACTIONS, get_required_fields (PyVal.str ty) =
      if ty = "label" then ["type", "label"] else ["type"]) ∧
    (∀ a : Dict, decide_eligibility a =
      if validate_action a then ExecutionDecision.APPROVED
      else ExecutionDecision.BLOCKED) := by
  refine ⟨?_, by decide, ?_⟩
  · intro a
    unfold validate_action
    by_cases he : a.isEmpty
    · have : a = [] := List.isEmpty_iff.mp he
      subst this
      simp
    · have ha : a ≠ [] := by simpa [List.isEmpty_iff] using he
      cases hl : a.lookup "type" with
      | none => simp [he, hl]
      | some v =>
        by_cases hall : is_action_type_allowed v
        · simp [he, hl, hall, ha, List.all_eq_true]
        · simp [he, hl, hall]
  · intro a
    unfold decide_eligibility
    by_cases h : validate_action a <;> simp [h]

/-- Witness for C4's amended theorem: the required-fields table at the
`label` type. -/
theorem validate_action_characterization_witness :
    get_required_fields (PyVal.str "label") = ["type", "label"] := by
  have h := validate_action_characterization.2.1 "label" (by decide)
  simpa using h

/-! ## Determinism (C8) -/

/-- Claim C8: `evaluate` is deterministic — two calls with identical
inputs against the same rule set produce identical results (the
embedding of `evaluate` is a pure function of the rules and inputs;
the source method contains no assignment to engine state, so
evaluation cannot mutate the rules). -/
theorem evaluate_deterministic :
    ∀ (rules : List Rule) (c₁ c₂ : String) (q₁ q₂ : ℚ)
      (s₁ s₂ u₁ u₂ b₁ b₂ : String) (l₁ l₂ : List String),
      c₁ = c₂ → q₁ = q₂ → s₁ = s₂ → u₁ = u₂ → b₁ = b₂ → l₁ = l₂ →
      evaluate rules c₁ q₁ s₁ u₁ b₁ l₁ = evaluate rules c₂ q₂ s₂ u₂ b₂ l₂ := by
  intro rules c₁ c₂ q₁ q₂ s₁ s₂ u₁ u₂ b₁ b₂ l₁ l₂ hc hq hs hu hb hl
  subst hc; subst hq; subst hs; subst hu; subst hb; subst hl
  rfl

/-- Witness for C8 at a concrete repeated evaluation. -/
theorem evaluate_deterministic_witness :
    evaluate default_rules "important" (mkRat 95 100) "b" "s" "t" [] =
      evaluate default_rules "important" (mkRat 95 100) "b" "s" "t" [] :=
  evaluate_deterministic default_rules "important" "important"
    (mkRat 95 100) (mkRat 95 100) "b" "b" "s" "s" "t" "t" [] []
    rfl rfl rfl rfl rfl rfl

/-! ## Confidence scoring (C2, C6) -/

/-- Claim C2 counterexample: at classification confidence 0.699 with
one matched rule, the evaluation scores 79 (the source truncates
`0.699 * 100` with `int()`), while the claim's formula with
`base = round(confidence * 100)` gives 80. -/
theorem evaluate_confidence_round_cex :
    (evaluate [{ name := "r1" }] "x" (mkRat 699 1000) "" "" ""
      []).matched_rules.length = 1 ∧
    (evaluate [{ name := "r1" }] "x" (mkRat 699 1000) "" "" ""
      []).confidence_score = 79 ∧
    specConfidenceScore (mkRat 699 1000) 1 = 80 := by
  decide

theorem calculate_confidence_eq_trunc (matched : List Dict)
    (ctx : EmailContext) (h : matched ≠ []) :
    calculate_confidence matched ctx =
      specConfidenceScoreTrunc ctx.confidence matched.length := by
  have he : matched.isEmpty = false := by
    cases matched with
    | nil => exact absurd rfl h
    | cons x xs => rfl
  unfold calculate_confidence specConfidenceScoreTrunc
  simp only [he, Bool.false_eq_true, if_false]
  by_cases hc : ctx.confidence < mkRat 6 10 <;> simp [hc] <;>
    rw [Int.mul_comm]

/-- Claim C2 (amended): for every evaluation, if no rule matched then
`confidence_score = 0` and `reasoning = ""`; otherwise
`confidence_score = min(base + boost, 100)` floored at 0, with
`base = int(classification_confidence * 100)` (truncation, not
`round`), the `−20` penalty below 0.6 floored at 0, and
`boost = min(10 * matched, 30)`. -/
theorem evaluate_confidence_trunc_formula (rules : List Rule)
    (cls : String) (conf : ℚ) (snd subj bd : String) (lbls : List String) :
    ((evaluate rules cls conf snd subj bd lbls).matched_rules = [] →
      (evaluate rules cls conf snd subj bd lbls).confidence_score = 0 ∧
      (evaluate rules cls conf snd subj bd lbls).reasoning = "") ∧
    ((evaluate rules cls conf snd subj bd lbls).matched_rules ≠ [] →
      (evaluate rules cls conf snd subj bd lbls).confidence_score =
        specConfidenceScoreTrunc conf
          (evaluate rules cls conf snd subj bd lbls).matched_rules.length) := by
  constructor
  · intro h
    have he : (evalRules rules
        ⟨cls, conf, snd, subj, bd, lbls⟩).1.isEmpty = true := by
      have : (evaluate rules cls conf snd subj bd lbls).matched_rules =
          (evalRules rules ⟨cls, conf, snd, subj, bd, lbls⟩).1 := rfl
      rw [this] at h
      simp [List.isEmpty_iff, h]
    constructor <;> simp [evaluate, he]
  · intro h
    have he : (evalRules rules ⟨cls, conf, snd, subj, bd, lbls⟩).1 ≠ [] := h
    have := calculate_confidence_eq_trunc
      (evalRules rules ⟨cls, conf, snd, subj, bd, lbls⟩).1
      ⟨cls, conf, snd, subj, bd, lbls⟩ he
    have he' : (evalRules rules
        ⟨cls, conf, snd, subj, bd, lbls⟩).1.isEmpty = false := by
      cases hx : (evalRules rules ⟨cls, conf, snd, subj, bd, lbls⟩).1 with
      | nil => exact absurd hx he
      | cons a l => rfl
    simp [evaluate, he', this]

/-- Witness for C2's amended theorem at a concrete evaluation with one
matched rule. -/
theorem evaluate_confidence_trunc_formula_witness :
    (evaluate [{ name := "r1" }] "x" (mkRat 699 1000) "" "" ""
      []).confidence_score =
      specConfidenceScoreTrunc (mkRat 699 1000)
        (evaluate [{ name := "r1" }] "x" (mkRat 699 1000) "" "" ""
          []).matched_rules.length :=
  (evaluate_confidence_trunc_formula [{ name := "r1" }] "x"
    (mkRat 699 1000) "" "" "" []).2 (by decide)

/-- Claim C6: the confidence score of every evaluation lies in
`[0, 100]`, and at fixed classification confidence the score with two
matched rules is never below the score with one matched rule. -/
theorem confidence_score_range_monotone :
    (∀ (rules : List Rule) (cls : String) (conf : ℚ) (snd subj bd : String)
      (lbls : List String),
      0 ≤ (evaluate rules cls conf snd subj bd lbls).confidence_score ∧
      (evaluate rules cls conf snd subj bd lbls).confidence_score ≤ 100) ∧
    (∀ (ctx : EmailContext) (m₁ m₂ : List Dict),
      m₁.length = 1 → m₂.length = 2 →
      calculate_confidence m₁ ctx ≤ calculate_confidence m₂ ctx) := by
  have hrange : ∀ (m : List Dict) (ctx : EmailContext),
      0 ≤ calculate_confidence m ctx ∧ calculate_confidence m ctx ≤ 100 := by
    intro m ctx
    unfold calculate_confidence
    by_cases hm : m.isEmpty
    · simp [hm]
    · simp only [hm, Bool.false_eq_true, if_false]
      omega
  constructor
  · intro rules cls conf snd subj bd lbls
    have h := hrange (evalRules rules ⟨cls, conf, snd, subj, bd, lbls⟩).1
      ⟨cls, conf, snd, subj, bd, lbls⟩
    by_cases hm : (evalRules rules
        ⟨cls, conf, snd, subj, bd, lbls⟩).1.isEmpty
    · simp [evaluate, hm]
    · simp only [evaluate, hm, Bool.false_eq_true, if_false]
      omega
  · intro ctx m₁ m₂ h1 h2
    have e1 : m₁.isEmpty = false := by cases m₁ <;> simp_all
    have e2 : m₂.isEmpty = false := by cases m₂ <;> simp_all
    unfold calculate_confidence
    simp only [e1, e2, h1, h2, Bool.false_eq_true, if_false]
    by_cases hc : ctx.confidence < mkRat 6 10 <;> simp [hc] <;> omega

/-- Witness for C6's monotonicity at concrete matched-rule lists. -/
theorem confidence_score_range_monotone_witness :
    calculate_confidence [[("name", PyVal.str "a"), ("priority", PyVal.int 5)]]
        ⟨"x", mkRat 1 2, "", "", "", []⟩ ≤
      calculate_confidence
        [[("name", PyVal.str "a"), ("priority", PyVal.int 5)],
         [("name", PyVal.str "b"), ("priority", PyVal.int 5)]]
        ⟨"x", mkRat 1 2, "", "", "", []⟩ :=
  confidence_score_range_monotone.2 ⟨"x", mkRat 1 2, "", "", "", []⟩
    [[("name", PyVal.str "a"), ("priority", PyVal.int 5)]]
    [[("name", PyVal.str "a"), ("priority", PyVal.int 5)],
     [("name", PyVal.str "b"), ("priority", PyVal.int 5)]]
    (by decide) (by decide)

/-! ## Safety flags (C5) -/

/-- Claim C5 counterexample: two matched rules contributing the same
safety flag leave a duplicate in `safety_flags` — the field is a plain
list extended per rule, not a deduplicated set. -/
theorem safety_flags_duplicates_cex :
    (evaluate [{ name := "r1", safety_flags := ["high_risk"] },
               { name := "r2", safety_flags := ["high_risk"] }]
      "x" (mkRat 1 2) "" "" "" []).safety_flags =
      ["high_risk", "high_risk"] ∧
    ¬ (evaluate [{ name := "r1", safety_flags := ["high_risk"] },
                 { name := "r2", safety_flags := ["high_risk"] }]
      "x" (mkRat 1 2) "" "" "" []).safety_flags.Nodup := by
  constructor
  · decide
  · decide

/-- Claim C5 (amended): `safety_flags` is the concatenation, in match
order, of the matched active rules' safety-flag lists (duplicates
preserved — a list, not a set). -/
theorem safety_flags_concat_of_matched (rules : List Rule) (cls : String)
    (conf : ℚ) (snd subj bd : String) (lbls : List String) :
    (evaluate rules cls conf snd subj bd lbls).safety_flags =
      (rules.filter (fun r => r.is_active &&
        rule_matches r ⟨cls, conf, snd, subj, bd, lbls⟩)).flatMap
        Rule.safety_flags := by
  have key : ∀ (rs : List Rule) (ctx : EmailContext),
      (evalRules rs ctx).2.2 =
        (rs.filter (fun r => r.is_active && rule_matches r ctx)).flatMap
          Rule.safety_flags := by
    intro rs ctx
    induction rs with
    | nil => rfl
    | cons r rest ih =>
      by_cases h : r.is_active && rule_matches r ctx <;>
        simp [evalRules, h, List.filter_cons, ih]
  exact key rules ⟨cls, conf, snd, subj, bd, lbls⟩

/-! ## Rule matching (C7) -/

/-- Claim C7: a rule with entirely empty conditions matches every email
context (whose classification confidence is in the contract's `[0,1]`
domain, hence nonnegative); a rule never matches a context whose
confidence is strictly below its `min_confidence`; and the bound is
inclusive — with all other conditions empty, confidence equal to
`min_confidence` matches. -/
theorem rule_matches_empty_and_threshold :
    (∀ (rule : Rule) (ctx : EmailContext), rule.conditions = {} →
      0 ≤ ctx.confidence → rule_matches rule ctx = true) ∧
    (∀ (rule : Rule) (ctx : EmailContext),
      ctx.confidence < rule.conditions.min_confidence →
      rule_matches rule ctx = false) ∧
    (∀ (rule : Rule) (ctx : EmailContext),
      rule.conditions.category = [] → rule.conditions.sender_pattern = [] →
      rule.conditions.subject_keywords = [] →
      rule.conditions.body_keywords = [] → rule.conditions.labels = [] →
      ctx.confidence = rule.conditions.min_confidence →
      rule_matches rule ctx = true) := by
  refine ⟨?_, ?_, ?_⟩
  · intro rule ctx hc h0
    unfold rule_matches
    rw [hc]
    simp [not_lt.mpr h0]
  · intro rule ctx h
    unfold rule_matches
    by_cases hA : ¬ rule.conditions.category.isEmpty &&
        ¬ rule.conditions.category.contains ctx.classification <;>
      simp [hA, h]
  · intro rule ctx hcat hsp hsk hbk hlb hconf
    unfold rule_matches
    simp [hcat, hsp, hsk, hbk, hlb, hconf]

/-- Witness for C7 at concrete rules and contexts. -/
theorem rule_matches_empty_and_threshold_witness :
    rule_matches ⟨"r", {}, [], .int 5, true, []⟩
      ⟨"c", mkRat 1 2, "", "", "", []⟩ = true ∧
    rule_matches ⟨"r", { min_confidence := mkRat 9 10 }, [], .int 5, true, []⟩
      ⟨"c", mkRat 1 2, "", "", "", []⟩ = false :=
  ⟨rule_matches_empty_and_threshold.1 _ _ rfl (by decide),
   rule_matches_empty_and_threshold.2.1 _ _ (by decide)⟩

/-! ## Pattern matching (C3) -/

/-- The three sequential single-character `replace` passes of the
source compute the same string as the spec's character-wise
translation. -/
theorem wildcardToRegex_eq_spec (p : List Char) :
    wildcardToRegex p = specWildcardRegex p := by
  induction p with
  | nil => rfl
  | cons c l ih =>
    unfold wildcardToRegex specWildcardRegex pyReplaceChar at ih ⊢
    simp only [List.flatMap_cons, List.flatMap_append] at ih ⊢
    rw [ih]
    by_cases h1 : c = '.'
    · subst h1; rfl
    · by_cases h2 : c = '*'
      · subst h2; rfl
      · by_cases h3 : c = '?'
        · subst h3; rfl
        · simp [h1, h2, h3]

/-- Claim C3 counterexample: the source's regex branch is
`re.search(pattern, text)` with no `IGNORECASE` flag, so `"^ADMIN"`
does not match `"admin@x.com"`, while the claim's case-insensitive
search does. -/
theorem pattern_matches_regex_case_cex :
    pattern_matches "^ADMIN" "admin@x.com" = false ∧
    spec_pattern_matches "^ADMIN" "admin@x.com" = true := by
  decide

/-- Claim C3 (amended): `_pattern_matches` behaves exactly as the
spec's pattern-matching paragraph describes, except that the regex
branch (patterns starting with `^` or `(`) is a CASE-SENSITIVE search;
the wildcard branch escapes `.`, turns `*` into zero-or-more and `?`
into exactly-one, matches case-insensitively anchored at the start and
not at the end; the `"*@company.com"` examples hold; and a pattern the
compiler rejects yields a non-match instead of an exception. -/
theorem pattern_matches_amended_spec :
    (∀ p t : String, pattern_matches p t = spec_pattern_matches_cs p t) ∧
    pattern_matches "*@company.com" "user@company.com" = true ∧
    pattern_matches "*@company.com" "boss@company.com" = true ∧
    pattern_matches "*@company.com" "user@other.com" = false ∧
    (∀ p t : String,
      parseRE (if startsWithRegex p.data then p.data
        else wildcardToRegex p.data) = none →
      pattern_matches p t = false) := by
  refine ⟨?_, by decide, by decide, by decide, ?_⟩
  · intro p t
    simp only [pattern_matches, spec_pattern_matches_cs,
      wildcardToRegex_eq_spec]
  · intro p t h
    simp only [pattern_matches]
    by_cases hb : startsWithRegex p.data
    · simp only [hb, if_true] at h ⊢
      rw [h]
    · simp only [hb, Bool.false_eq_true, if_false] at h ⊢
      rw [h]

/-- Witness for C3's amended theorem: the unclosed group `"("` fails to
compile and yields a non-match. -/
theorem pattern_matches_amended_spec_witness :
    pattern_matches "(" "anything" = false :=
  pattern_matches_amended_spec.2.2.2.2 "(" "anything" (by decide)

/-- Validation of the `re` model against the source: the repository's
own pattern-matching tests (`test_rule_engine.py`) and a battery of
further cases exercising anchors, bounded repetition, inline flags,
groups, lookaheads, class escapes, the malformed-repeat literal
fallback and the compile-error cases.  Each expected value in the
right-hand list is the value CPython's `re` gives `_pattern_matches`
on the input in the same position on the left. -/
theorem pattern_matches_python_vectors :
    [pattern_matches "^[\\w\\.-]+@[\\w\\.-]+\\.\\w+$" "user@company.com",
     pattern_matches "^[\\w\\.-]+@[\\w\\.-]+\\.\\w+$" "not-an-email",
     pattern_matches "test?.txt" "test1.txt",
     pattern_matches "test?.txt" "testA.txt",
     pattern_matches "test?.txt" "test12.txt",
     pattern_matches "IMPORTANT" "important",
     pattern_matches "Boss@*" "boss@company.com",
     pattern_matches "a$" "a",
     pattern_matches "a$" "ab",
     pattern_matches "x\x7b1\x7d" "x",
     pattern_matches "x\x7b2\x7d" "x",
     pattern_matches "x\x7b2\x7d" "xx",
     pattern_matches "x\x7b2,\x7d" "xxx",
     pattern_matches "x\x7b,2\x7dy" "y",
     pattern_matches "x\x7b1,2\x7dy" "xxy",
     pattern_matches "x\x7b1,2\x7dy" "xxxy",
     pattern_matches "(?i)A" "xay",
     pattern_matches "(?i)ADMIN" "admin@x",
     pattern_matches "(a|b)cd" "xxbcd",
     pattern_matches "(?:ab)+c" "ababc",
     pattern_matches "(?P<u>ab)c" "abc",
     pattern_matches "(?=ab)a" "abc",
     pattern_matches "(?!ab)a" "abc",
     pattern_matches "(?!ab)a" "ac",
     pattern_matches "^admin" "admin@x.com",
     pattern_matches "a^b" "ab",
     pattern_matches "(\\bfoo\\b)" "a foo b",
     pattern_matches "(\\bfoo\\b)" "afoob",
     pattern_matches "a\x7b" "a\x7b",
     pattern_matches "a\x7b\x7d" "a\x7b\x7d",
     pattern_matches "a\x7b1" "a\x7b1",
     pattern_matches "a\x7b1,x" "a\x7b1,x",
     pattern_matches "\x7d" "\x7d",
     pattern_matches "(" "x",
     pattern_matches "^(" "x",
     pattern_matches "^)" "x",
     pattern_matches "^*" "x",
     pattern_matches "^a\\" "a",
     pattern_matches "^[a-z]+$" "hello",
     pattern_matches "^[a-z]+$" "Hello",
     pattern_matches "^[^a-z]+$" "HELLO9",
     pattern_matches "^[]]+$" "]]",
     pattern_matches "^[a-]+$" "a-a",
     pattern_matches "^[-a]+$" "-aa",
     pattern_matches "^\\d\x7b3\x7d-\\d\x7b4\x7d$" "555-1234",
     pattern_matches "^\\sx$" " x",
     pattern_matches "^\\x41$" "A",
     pattern_matches "^a\\.b$" "a.b",
     pattern_matches "^a\\.b$" "axb",
     pattern_matches "(?#note)abc" "xxabc",
     pattern_matches "^ab|cd" "zcd",
     pattern_matches "^ab|^cd" "zcd",
     pattern_matches "^a(b|c)*d$" "abcbcd",
     pattern_matches "(?im)^b" "a\nB",
     pattern_matches "^a.b$" "a\nb",
     pattern_matches "(?s)^a.b$" "a\nb",
     pattern_matches "^x$" "x\n",
     pattern_matches "^x\\Z" "x\n",
     pattern_matches "a**" "aa",
     pattern_matches "a*?" "aa",
     pattern_matches "a*??" "aa",
     pattern_matches "x\x7b2\x7d\x7b3\x7d" "xxxxxx",
     pattern_matches "\x7b2\x7d" "\x7b2\x7d",
     pattern_matches "^\\w+$" "hello_world9",
     pattern_matches "^\\W$" "@",
     pattern_matches "^[\\d]+$" "123",
     pattern_matches "^[x\\-z]+$" "x-z"] =
    [true, false, true, true, false, true, true, true, false, true, false, true, true, true, true, false, true, true, true, true, true, true, false, true, true, false, true, false, true, true, true, true, true, false, false, false, false, false, true, false, true, true, true, true, true, true, true, true, false, true, true, false, true, true, false, true, true, false, true, true, false, false, false, true, true, true, true] := by
  decide

/-! ## Recommended-action shape (C10) -/

theorem insertDesc_perm (x : Dict) (l : List Dict) :
    (insertDesc x l).Perm (x :: l) := by
  induction l with
  | nil => exact List.Perm.refl _
  | cons y ys ih =>
    unfold insertDesc
    by_cases h : priorityKey y ≤ priorityKey x
    · simp [h]
    · simp only [h, if_false]
      exact (ih.cons y).trans (List.Perm.swap x y ys)

theorem pySortByPriority_perm (l : List Dict) :
    (pySortByPriority l).Perm l := by
  induction l with
  | nil => exact List.Perm.refl _
  | cons x xs ih => exact (insertDesc_perm x _).trans (ih.cons x)

theorem mem_evalRules_actions {rules : List Rule} {ctx : EmailContext}
    {a : Dict} (h : a ∈ (evalRules rules ctx).2.1) :
    ∃ s, create_action s ctx = some a := by
  induction rules with
  | nil => simp [evalRules] at h
  | cons r rest ih =>
    by_cases hr : r.is_active && rule_matches r ctx
    · simp only [evalRules, hr, if_true] at h
      rcases List.mem_append.mp h with hm | hm
      · rcases List.mem_filterMap.mp hm with ⟨s, -, hs⟩
        exact ⟨s, hs⟩
      · exact ih hm
    · simp only [evalRules, hr, Bool.false_eq_true, if_false] at h
      exact ih h

theorem create_action_props (s : Dict) (ctx : EmailContext) (a : Dict)
    (h : create_action s ctx = some a) :
    ∃ ty : String,
      a.lookup "type" = some (.str ty) ∧
      (VALID_ACTIONS.lookup ty).isSome = true ∧
      a.lookup "description" =
        some (.str ((VALID_ACTIONS.lookup ty).getD "")) ∧
      a.lookup "priority" = some (dictGet s "priority" (.int 5)) ∧
      a.lookup "reason" = some (dictGet s "reason" (.str "")) ∧
      (ty = "label" →
        a.lookup "label" = some (dictGet s "label" (.str ""))) ∧
      (ty = "snooze" →
        a.lookup "hours" = some (dictGet s "hours" (.int 24))) ∧
      (ty = "reply_draft" →
        a.lookup "template" = some (dictGet s "template" (.str ""))) ∧
      (ty = "priority" →
        a.lookup "level" = some (dictGet s "level" (.str "normal"))) ∧
      (ty = "delegate" →
        a.lookup "recipient" = some (dictGet s "recipient" (.str ""))) := by
  unfold create_action at h
  rcases hty : s.lookup "type" with - | v
  · rw [hty] at h
    simp at h
  · rw [hty] at h
    cases v with
    | int n => simp at h
    | bool b => simp at h
    | str ty =>
      simp only [] at h
      rcases hl : VALID_ACTIONS.lookup ty with - | desc
      · rw [hl] at h
        simp at h
      · rw [hl] at h
        have ha : a =
            [("type", PyVal.str ty), ("description", PyVal.str desc),
             ("priority", dictGet s "priority" (.int 5)),
             ("reason", dictGet s "reason" (.str ""))] ++
            (if ty == "label" then
              [("label", dictGet s "label" (.str ""))]
            else if ty == "snooze" then
              [("hours", dictGet s "hours" (.int 24))]
            else if ty == "reply_draft" then
              [("template", dictGet s "template" (.str ""))]
            else if ty == "priority" then
              [("level", dictGet s "level" (.str "normal"))]
            else if ty == "delegate" then
              [("recipient", dictGet s "recipient" (.str ""))]
            else []) := by
          exact (Option.some.inj h).symm
        refine ⟨ty, ?_, by simp [hl], ?_, ?_, ?_, ?_, ?_, ?_, ?_, ?_⟩
        · rw [ha]; rfl
        · rw [ha, hl]; rfl
        · rw [ha]; rfl
        · rw [ha]; rfl
        · intro e; subst e; rw [ha]; rfl
        · intro e; subst e; rw [ha]; rfl
        · intro e; subst e; rw [ha]; rfl
        · intro e; subst e; rw [ha]; rfl
        · intro e; subst e; rw [ha]; rfl

/-- Claim C10: the action whitelist has ten entries; every action in
`recommended_actions` carries a whitelisted `type`, the whitelist's
`description` text, and `priority`/`reason` keys plus the type-specific
key; and `_create_action` fills the documented defaults (`priority` 5,
`reason` empty, snooze `hours` 24, priority `level` "normal") when the
template omits them. -/
theorem recommended_actions_well_formed :
    VALID_ACTIONS.length = 10 ∧
    (∀ (rules : List Rule) (cls : String) (conf : ℚ) (snd subj bd : String)
      (lbls : List String) (a : Dict),
      a ∈ (evaluate rules cls conf snd subj bd lbls).recommended_actions →
      ∃ ty : String,
        a.lookup "type" = some (.str ty) ∧
        (VALID_ACTIONS.lookup ty).isSome = true ∧
        a.lookup "description" =
          some (.str ((VALID_ACTIONS.lookup ty).getD "")) ∧
        (a.lookup "priority").isSome = true ∧
        (a.lookup "reason").isSome = true ∧
        (ty = "label" → (a.lookup "label").isSome = true) ∧
        (ty = "snooze" → (a.lookup "hours").isSome = true) ∧
        (ty = "reply_draft" → (a.lookup "template").isSome = true) ∧
        (ty = "priority" → (a.lookup "level").isSome = true) ∧
        (ty = "delegate" → (a.lookup "recipient").isSome = true)) ∧
    (∀ (s : Dict) (ctx : EmailContext) (a : Dict),
      create_action s ctx = some a →
      (s.lookup "priority" = none → a.lookup "priority" = some (.int 5)) ∧
      (s.lookup "reason" = none → a.lookup "reason" = some (.str "")) ∧
      (a.lookup "type" = some (.str "snooze") → s.lookup "hours" = none →
        a.lookup "hours" = some (.int 24)) ∧
      (a.lookup "type" = some (.str "priority") → s.lookup "level" = none →
        a.lookup "level" = some (.str "normal"))) := by
  refine ⟨rfl, ?_, ?_⟩
  · intro rules cls conf snd subj bd lbls a hmem
    have hmem' : a ∈ (evalRules rules
        ⟨cls, conf, snd, subj, bd, lbls⟩).2.1 := by
      have hperm := pySortByPriority_perm
        (evalRules rules ⟨cls, conf, snd, subj, bd, lbls⟩).2.1
      exact hperm.mem_iff.mp hmem
    obtain ⟨s, hs⟩ := mem_evalRules_actions hmem'
    obtain ⟨ty, h1, h2, h3, h4, h5, h6, h7, h8, h9, h10⟩ :=
      create_action_props s _ a hs
    exact ⟨ty, h1, h2, h3, by simp [h4], by simp [h5],
      fun e => by simp [h6 e], fun e => by simp [h7 e],
      fun e => by simp [h8 e], fun e => by simp [h9 e],
      fun e => by simp [h10 e]⟩
  · intro s ctx a hs
    obtain ⟨ty, h1, -, -, h4, h5, -, h7, -, h9, -⟩ :=
      create_action_props s ctx a hs
    refine ⟨?_, ?_, ?_, ?_⟩
    · intro hn
      rw [h4]
      simp [dictGet, hn]
    · intro hn
      rw [h5]
      simp [dictGet, hn]
    · intro hty hn
      rw [h1] at hty
      have : ty = "snooze" := by simpa using hty
      rw [h7 this]
      simp [dictGet, hn]
    · intro hty hn
      rw [h1] at hty
      have : ty = "priority" := by simpa using hty
      rw [h9 this]
      simp [dictGet, hn]

/-- Witness for C10 at a concrete snooze template with omitted fields:
the materialized action carries `hours = 24`. -/
theorem recommended_actions_well_formed_witness :
    (([("type", PyVal.str "snooze"),
       ("description", PyVal.str "Snooze email for later"),
       ("priority", PyVal.int 5), ("reason", PyVal.str ""),
       ("hours", PyVal.int 24)] : Dict).lookup "hours") =
      some (PyVal.int 24) :=
  ((recommended_actions_well_formed.2.2 [("type", PyVal.str "snooze")]
    ⟨"c", 0, "", "", "", []⟩ _ (by decide)).2.2.1 (by decide) (by decide))

end VAS
